import Mathlib

/-!
# MakeDID: the initial migration script

A shallow embedding of `migrations/1_initial_migration.js`:

    const Migrations = artifacts.require("Migrations");
    const CredentialBox = artifacts.require("CredentialBox.sol");

    module.exports = function (deployer) {
      deployer.deploy(Migrations);
      deployer.deploy(CredentialBox);
    };

The script talks to two objects it does not define: the `artifacts` resolver
and the `deployer` handle.  Both are parameters of the embedding.  A call to
either of them may change the state of the surrounding framework, may return a
value and may throw; a throw leaves the state changes made so far in place.
What the script itself does is recorded in a world: the names it handed to the
resolver and the deploy requests it issued, each in call order.  The script
drops what `deploy` returns and chains nothing on it, so of a deployment it
sees only whether the call threw: work a deployer leaves pending when the call
returns completes or fails after the script has returned.
-/

namespace MakeDID

/-- A deploy request as the deployer receives it: the first argument of
`deployer.deploy(...)` and the remaining (constructor) arguments. -/
structure Request (V : Type) where
  artifact : V
  args : List V
deriving DecidableEq, Repr

/-- What the executor records: a deployment was requested (the script called
`deploy`) or a deployment completed. -/
inductive Event (V : Type) where
  | requested (req : Request V)
  | completed (artifact : V)
deriving DecidableEq, Repr

/-- The observable world: names passed to `artifacts.require` in call order,
the executor's event record in order, and the state of the framework behind the
resolver and the deployer. -/
structure World (σ V : Type) where
  resolved : List String
  trace : List (Event V)
  ext : σ
deriving DecidableEq, Repr

/-- The `artifacts` object: `require(name)` returns a value or throws, and may
change the framework state. -/
structure Resolver (σ V ε : Type) where
  require : String → σ → Except ε V × σ

/-- What one call of `deployer.deploy` does: it returns a value or throws,
records the deployments that completed while the call was running, and leaves
a new framework state. -/
structure DeployResult (σ V ε : Type) where
  outcome : Except ε V
  completed : List V
  state : σ

/-- The `deployer` object.  `deploy` is the method the script calls.  `settle`
is what the deployer does once the script has returned control to the event
loop: the completions of deployments still pending at that point. -/
structure Deployer (σ V ε : Type) where
  deploy : V → List V → σ → DeployResult σ V ε
  settle : σ → List V × σ

/-- The two module-level constants of the script. -/
structure Module (V : Type) where
  Migrations : V
  CredentialBox : V
deriving DecidableEq, Repr

variable {σ V ε : Type}

/-- The call `artifacts.require(name)`: the name is recorded, the resolver
runs. -/
def callRequire (artifacts : Resolver σ V ε) (name : String) (w : World σ V) :
    Except ε V × World σ V :=
  let r := artifacts.require name w.ext
  (r.1, { w with resolved := w.resolved ++ [name], ext := r.2 })

/-- The call `deployer.deploy(artifact, ...args)`: the request is recorded, the
deployer runs, and the completions it reports during the call follow the
request in the record. -/
def callDeploy (deployer : Deployer σ V ε) (artifact : V) (args : List V) (w : World σ V) :
    Except ε V × World σ V :=
  let r := deployer.deploy artifact args w.ext
  (r.outcome,
    { w with
      trace := w.trace ++ Event.requested ⟨artifact, args⟩ :: r.completed.map Event.completed,
      ext := r.state })

/-- Loading the module (lines 1-2): the two `artifacts.require` calls, in
source order, with the string literals of the source.  A throw of the first
call skips the second; a throw of either leaves the module unloaded. -/
def load (artifacts : Resolver σ V ε) (w : World σ V) : Except ε (Module V) × World σ V :=
  match callRequire artifacts "Migrations" w with
  | (.error e, w1) => (.error e, w1)
  | (.ok migrations, w1) =>
    match callRequire artifacts "CredentialBox.sol" w1 with
    | (.error e, w2) => (.error e, w2)
    | (.ok credentialBox, w2) => (.ok ⟨migrations, credentialBox⟩, w2)

/-- The exported function (lines 4-7), `run(deployer)` in the specification:
two `deploy` calls, each with the artifact as its only argument, their return
values dropped; a throw of the first call skips the second, and the function
has no `return`, so it yields `undefined` (here `()`). -/
def run (m : Module V) (deployer : Deployer σ V ε) (w : World σ V) :
    Except ε Unit × World σ V :=
  match callDeploy deployer m.Migrations [] w with
  | (.error e, w1) => (.error e, w1)
  | (.ok _, w1) =>
    match callDeploy deployer m.CredentialBox [] w1 with
    | (.error e, w2) => (.error e, w2)
    | (.ok _, w2) => (.ok (), w2)

/-- Control returns to the event loop: the deployer records the completions
that were still pending. -/
def yieldToLoop (deployer : Deployer σ V ε) (w : World σ V) : World σ V :=
  let r := deployer.settle w.ext
  { w with trace := w.trace ++ r.1.map Event.completed, ext := r.2 }

/-- One migration as the runner performs it: call the exported function, then
let the pending work of the deployer settle. -/
def migrate (m : Module V) (deployer : Deployer σ V ε) (w : World σ V) :
    Except ε Unit × World σ V :=
  let r := run m deployer w
  (r.1, yieldToLoop deployer r.2)

/-- Successive invocations of the exported function of one loaded module, one
per deployer of the list; a throw ends the sequence. -/
def runAll (m : Module V) : List (Deployer σ V ε) → World σ V → Except ε Unit × World σ V
  | [], w => (.ok (), w)
  | d :: ds, w =>
    match run m d w with
    | (.error e, w1) => (.error e, w1)
    | (.ok _, w1) => runAll m ds w1

/-- The request carried by an event, if it is a request. -/
def Event.asRequest : Event V → Option (Request V)
  | .requested req => some req
  | .completed _ => none

/-- The request log: the deploy requests of the record, in order. -/
def requestLog (w : World σ V) : List (Request V) :=
  w.trace.filterMap Event.asRequest

/-- A deployer whose `deploy` returns normally on every call. -/
def Deployer.Succeeds (d : Deployer σ V ε) : Prop :=
  ∀ a args s, ∃ r, (d.deploy a args s).outcome = .ok r

/-- A deployer that has recorded the completion of a deployment by the time
its `deploy` call returns. -/
def Deployer.Synchronous (d : Deployer σ V ε) : Prop :=
  ∀ a args s, a ∈ (d.deploy a args s).completed

/-- In a record, the completion of `a` is found before the first request
for `b`. -/
def completesBeforeRequest [DecidableEq V] (a b : V) (tr : List (Event V)) : Bool :=
  (tr.takeWhile fun e =>
      match e with
      | .requested req => !(decide (req.artifact = b))
      | .completed _ => true).contains (Event.completed a)

/-- The requests of `n` successful runs of a loaded module, in order. -/
def repeatRequests (m : Module V) : Nat → List (Request V)
  | 0 => []
  | n + 1 => [⟨m.Migrations, []⟩, ⟨m.CredentialBox, []⟩] ++ repeatRequests m n

/-! ## Concrete collaborators -/

/-- A resolver that numbers the names it knows and throws on the others. -/
def tableResolver {σ : Type} : Resolver σ Nat String where
  require name s :=
    if name = "Migrations" then (.ok 1, s)
    else if name = "CredentialBox" then (.ok 2, s)
    else if name = "CredentialBox.sol" then (.ok 3, s)
    else (.error name, s)

/-- A deployer that completes each deployment inside the call; its state
counts the deployments and the receipt is the count. -/
def syncDeployer : Deployer Nat Nat String where
  deploy a _ n := ⟨.ok (n + 1), [a], n + 1⟩
  settle n := ([], n)

/-- A deployer whose `deploy` only queues the deployment and returns at once
(the returned value stands for a promise); the queue is completed when the
event loop runs. -/
def asyncDeployer : Deployer (List Nat) Nat String where
  deploy a _ q := ⟨.ok 0, [], q ++ [a]⟩
  settle q := (q, [])

/-- A deployer that throws on the artifact `bad` and succeeds, synchronously,
on every other one. -/
def failingOn (bad : Nat) : Deployer Nat Nat String where
  deploy a _ n := if a = bad then ⟨.error "revert", [], n + 1⟩ else ⟨.ok (n + 1), [a], n + 1⟩
  settle n := ([], n)

/-- The state of a deployer that settles its deployments after the call: the
artifacts still pending, and the deployments that have failed, each with its
error. -/
structure Ledger where
  pending : List Nat
  failed : List (Nat × String)
deriving DecidableEq, Repr

/-- A deployer whose `deploy` only queues the deployment and returns at once
(the returned value stands for a promise).  When the event loop runs, the
deployment of the artifact `bad` fails with the error "revert", which the
deployer records, and every other pending deployment completes. -/
def lateFailingOn (bad : Nat) : Deployer Ledger Nat String where
  deploy a _ q := ⟨.ok 0, [], { q with pending := q.pending ++ [a] }⟩
  settle q :=
    (q.pending.filter fun a => a != bad,
      { pending := [],
        failed := q.failed ++ (q.pending.filter fun a => a == bad).map fun a => (a, "revert") })

/-- The loaded module used in the examples. -/
def exampleModule : Module Nat := ⟨1, 3⟩

/-- A fresh world over a ledger state. -/
def freshLedgerWorld : World Ledger Nat := ⟨[], [], ⟨[], []⟩⟩

/-- A fresh world over a counter state. -/
def freshWorld : World Nat Nat := ⟨[], [], 0⟩

/-- A fresh world over a queue state. -/
def freshQueueWorld : World (List Nat) Nat := ⟨[], [], []⟩

/-- A fresh world for loading. -/
def freshLoadWorld : World Unit Nat := ⟨[], [], ()⟩

/-! ## How one call and one run change the world -/

section Lemmas

variable {σ V ε : Type}

theorem filterMap_asRequest_completed (l : List V) :
    (l.map Event.completed).filterMap Event.asRequest = ([] : List (Request V)) := by
  induction l with
  | nil => rfl
  | cons a l ih => simp [List.filterMap_cons, Event.asRequest]

theorem callDeploy_outcome (d : Deployer σ V ε) (a : V) (args : List V) (w : World σ V) :
    (callDeploy d a args w).1 = (d.deploy a args w.ext).outcome := rfl

theorem callDeploy_ext (d : Deployer σ V ε) (a : V) (args : List V) (w : World σ V) :
    (callDeploy d a args w).2.ext = (d.deploy a args w.ext).state := rfl

theorem callDeploy_resolved (d : Deployer σ V ε) (a : V) (args : List V) (w : World σ V) :
    (callDeploy d a args w).2.resolved = w.resolved := rfl

theorem callDeploy_trace (d : Deployer σ V ε) (a : V) (args : List V) (w : World σ V) :
    (callDeploy d a args w).2.trace =
      w.trace ++ Event.requested ⟨a, args⟩ :: (d.deploy a args w.ext).completed.map Event.completed :=
  rfl

theorem callDeploy_requestLog (d : Deployer σ V ε) (a : V) (args : List V) (w : World σ V) :
    requestLog (callDeploy d a args w).2 = requestLog w ++ [⟨a, args⟩] := by
  simp [requestLog, callDeploy_trace, List.filterMap_append, List.filterMap_cons,
    Event.asRequest, filterMap_asRequest_completed]

theorem run_of_first_error (m : Module V) (d : Deployer σ V ε) (w : World σ V) (e : ε)
    (h : (callDeploy d m.Migrations [] w).1 = .error e) :
    run m d w = (.error e, (callDeploy d m.Migrations [] w).2) := by
  unfold run
  rcases hc : callDeploy d m.Migrations [] w with ⟨o, w1⟩
  rw [hc] at h
  cases o with
  | error e1 => simp at h; subst h; rfl
  | ok r => simp at h

theorem run_of_second_error (m : Module V) (d : Deployer σ V ε) (w : World σ V) (r : V) (e : ε)
    (h1 : (callDeploy d m.Migrations [] w).1 = .ok r)
    (h2 : (callDeploy d m.CredentialBox [] (callDeploy d m.Migrations [] w).2).1 = .error e) :
    run m d w =
      (.error e, (callDeploy d m.CredentialBox [] (callDeploy d m.Migrations [] w).2).2) := by
  unfold run
  rcases hc : callDeploy d m.Migrations [] w with ⟨o, w1⟩
  rw [hc] at h1 h2
  cases o with
  | error e1 => simp at h1
  | ok r1 =>
    rcases hc2 : callDeploy d m.CredentialBox [] w1 with ⟨o2, w2⟩
    simp only [hc2] at h2 ⊢
    cases o2 with
    | error e2 => simp at h2; subst h2; rfl
    | ok r2 => simp at h2

theorem run_of_ok (m : Module V) (d : Deployer σ V ε) (w : World σ V) (r1 r2 : V)
    (h1 : (callDeploy d m.Migrations [] w).1 = .ok r1)
    (h2 : (callDeploy d m.CredentialBox [] (callDeploy d m.Migrations [] w).2).1 = .ok r2) :
    run m d w =
      (.ok (), (callDeploy d m.CredentialBox [] (callDeploy d m.Migrations [] w).2).2) := by
  unfold run
  rcases hc : callDeploy d m.Migrations [] w with ⟨o, w1⟩
  rw [hc] at h1 h2
  cases o with
  | error e1 => simp at h1
  | ok r1 =>
    rcases hc2 : callDeploy d m.CredentialBox [] w1 with ⟨o2, w2⟩
    simp only [hc2] at h2 ⊢
    cases o2 with
    | error e2 => simp at h2
    | ok r2 => rfl

/-- Every run ends in one of three ways: the first call threw, the second call
threw, or both returned. -/
theorem run_cases (m : Module V) (d : Deployer σ V ε) (w : World σ V) :
    (∃ e, (callDeploy d m.Migrations [] w).1 = .error e ∧
        run m d w = (.error e, (callDeploy d m.Migrations [] w).2)) ∨
    (∃ r e, (callDeploy d m.Migrations [] w).1 = .ok r ∧
        (callDeploy d m.CredentialBox [] (callDeploy d m.Migrations [] w).2).1 = .error e ∧
        run m d w =
          (.error e, (callDeploy d m.CredentialBox [] (callDeploy d m.Migrations [] w).2).2)) ∨
    (∃ r1 r2, (callDeploy d m.Migrations [] w).1 = .ok r1 ∧
        (callDeploy d m.CredentialBox [] (callDeploy d m.Migrations [] w).2).1 = .ok r2 ∧
        run m d w =
          (.ok (), (callDeploy d m.CredentialBox [] (callDeploy d m.Migrations [] w).2).2)) := by
  cases h1 : (callDeploy d m.Migrations [] w).1 with
  | error e => exact Or.inl ⟨e, rfl, run_of_first_error m d w e h1⟩
  | ok r =>
    cases h2 : (callDeploy d m.CredentialBox [] (callDeploy d m.Migrations [] w).2).1 with
    | error e => exact Or.inr (Or.inl ⟨r, e, rfl, rfl, run_of_second_error m d w r e h1 h2⟩)
    | ok r2 => exact Or.inr (Or.inr ⟨r, r2, rfl, rfl, run_of_ok m d w r r2 h1 h2⟩)

theorem run_of_succeeds (m : Module V) (d : Deployer σ V ε) (w : World σ V) (h : d.Succeeds) :
    run m d w =
      (.ok (), (callDeploy d m.CredentialBox [] (callDeploy d m.Migrations [] w).2).2) := by
  obtain ⟨r1, h1⟩ := h m.Migrations [] w.ext
  obtain ⟨r2, h2⟩ := h m.CredentialBox [] (callDeploy d m.Migrations [] w).2.ext
  exact run_of_ok m d w r1 r2 h1 h2

theorem requestLog_two_calls (m : Module V) (d : Deployer σ V ε) (w : World σ V) :
    requestLog (callDeploy d m.CredentialBox [] (callDeploy d m.Migrations [] w).2).2 =
      requestLog w ++ [⟨m.Migrations, []⟩, ⟨m.CredentialBox, []⟩] := by
  rw [callDeploy_requestLog, callDeploy_requestLog, List.append_assoc]
  rfl

theorem run_resolved (m : Module V) (d : Deployer σ V ε) (w : World σ V) :
    (run m d w).2.resolved = w.resolved := by
  rcases run_cases m d w with ⟨e, -, h⟩ | ⟨r, e, -, -, h⟩ | ⟨r1, r2, -, -, h⟩ <;>
    rw [h] <;> rfl

theorem load_of_ok (artifacts : Resolver σ V ε) (w w1 : World σ V) (m : Module V)
    (h : load artifacts w = (.ok m, w1)) :
    ∃ s1 s2, artifacts.require "Migrations" w.ext = (.ok m.Migrations, s1) ∧
      artifacts.require "CredentialBox.sol" s1 = (.ok m.CredentialBox, s2) ∧
      w1 = ⟨w.resolved ++ ["Migrations", "CredentialBox.sol"], w.trace, s2⟩ := by
  unfold load callRequire at h
  rcases h1 : artifacts.require "Migrations" w.ext with ⟨o1, s1⟩
  simp only [h1] at h
  cases o1 with
  | error e => simp at h
  | ok v1 =>
    rcases h2 : artifacts.require "CredentialBox.sol" s1 with ⟨o2, s2⟩
    simp only [h2] at h
    cases o2 with
    | error e => simp at h
    | ok v2 =>
      simp only [Prod.mk.injEq, Except.ok.injEq] at h
      obtain ⟨hm, hw⟩ := h
      subst hm
      subst hw
      exact ⟨s1, s2, rfl, h2, by simp⟩

theorem repeatRequests_length (m : Module V) (n : Nat) :
    (repeatRequests m n).length = 2 * n := by
  induction n with
  | zero => rfl
  | succ n ih => simp [repeatRequests, ih]; omega

theorem runAll_of_succeeds (m : Module V) (ds : List (Deployer σ V ε)) (w : World σ V)
    (h : ∀ d ∈ ds, d.Succeeds) :
    (runAll m ds w).1 = .ok () ∧ (runAll m ds w).2.resolved = w.resolved ∧
      requestLog (runAll m ds w).2 = requestLog w ++ repeatRequests m ds.length := by
  induction ds generalizing w with
  | nil => exact ⟨rfl, rfl, by simp [runAll, repeatRequests]⟩
  | cons d ds ih =>
    have hd : d.Succeeds := h d (List.mem_cons_self d ds)
    have hrun := run_of_succeeds m d w hd
    have hstep : runAll m (d :: ds) w =
        runAll m ds (callDeploy d m.CredentialBox [] (callDeploy d m.Migrations [] w).2).2 := by
      simp only [runAll, hrun]
    obtain ⟨h1, h2, h3⟩ :=
      ih (callDeploy d m.CredentialBox [] (callDeploy d m.Migrations [] w).2).2
        fun d1 hd1 => h d1 (List.mem_cons_of_mem d hd1)
    rw [hstep]
    refine ⟨h1, h2, ?_⟩
    rw [h3, requestLog_two_calls]
    simp [repeatRequests]

end Lemmas

/-! ## The request sequence of one run -/

section Run

variable {σ V ε : Type}

/-- C1: on a deployer whose deploy succeeds on every call, one invocation of
the exported function appends exactly two requests to the request log, the
Migrations artifact first and the CredentialBox artifact second, and nothing
else. -/
theorem run_appends_two_requests (m : Module V) (d : Deployer σ V ε) (w : World σ V)
    (h : d.Succeeds) :
    requestLog (run m d w).2 =
      requestLog w ++ [⟨m.Migrations, []⟩, ⟨m.CredentialBox, []⟩] := by
  rw [run_of_succeeds m d w h]
  exact requestLog_two_calls m d w

theorem run_appends_two_requests_witness :
    syncDeployer.Succeeds ∧
      requestLog (run exampleModule syncDeployer freshWorld).2 =
        requestLog freshWorld ++
          [⟨exampleModule.Migrations, []⟩, ⟨exampleModule.CredentialBox, []⟩] :=
  ⟨fun _ _ _ => ⟨_, rfl⟩,
    run_appends_two_requests exampleModule syncDeployer freshWorld fun _ _ _ => ⟨_, rfl⟩⟩

/-- C2, as stated, fails: on a deployer whose deploy returns at once and whose
Migrations deployment fails afterwards, the Migrations call returns, the run
goes on to request CredentialBox, and the request log holds both requests; the
failure of the Migrations deployment, with its error, is in the record of the
deployer once the deployments have settled. -/
theorem late_failure_does_not_stop_second_request :
    (callDeploy (lateFailingOn 1) exampleModule.Migrations [] freshLedgerWorld).1 = .ok 0 ∧
      (migrate exampleModule (lateFailingOn 1) freshLedgerWorld).2.ext.failed =
        [(exampleModule.Migrations, "revert")] ∧
      requestLog (run exampleModule (lateFailingOn 1) freshLedgerWorld).2 =
        [⟨exampleModule.Migrations, []⟩, ⟨exampleModule.CredentialBox, []⟩] ∧
      requestLog (run exampleModule (lateFailingOn 1) freshLedgerWorld).2 ≠
        [⟨exampleModule.Migrations, []⟩] ∧
      (migrate exampleModule (lateFailingOn 1) freshLedgerWorld).2.trace =
        [.requested ⟨1, []⟩, .requested ⟨3, []⟩, .completed 3] :=
  ⟨rfl, by decide, by decide, by decide, by decide⟩

/-- C2, amended: when the deploy call on the Migrations artifact throws, the
run requests nothing further: the request log gains the Migrations request
alone, so on a fresh log it is that single request, and the CredentialBox
artifact is never requested. -/
theorem run_stops_after_failed_migrations (m : Module V) (d : Deployer σ V ε) (w : World σ V)
    (e : ε) (h : (d.deploy m.Migrations [] w.ext).outcome = .error e) :
    requestLog (run m d w).2 = requestLog w ++ [⟨m.Migrations, []⟩] ∧
      (requestLog w = [] → requestLog (run m d w).2 = [⟨m.Migrations, []⟩]) := by
  have hlog : requestLog (run m d w).2 = requestLog w ++ [⟨m.Migrations, []⟩] := by
    rw [run_of_first_error m d w e h]
    exact callDeploy_requestLog d m.Migrations [] w
  refine ⟨hlog, fun hw => ?_⟩
  rw [hlog, hw]
  rfl

theorem run_stops_after_failed_migrations_witness :
    ((failingOn 1).deploy exampleModule.Migrations [] freshWorld.ext).outcome = .error "revert" ∧
      requestLog (run exampleModule (failingOn 1) freshWorld).2 =
        requestLog freshWorld ++ [⟨exampleModule.Migrations, []⟩] ∧
      (requestLog freshWorld = [] →
        requestLog (run exampleModule (failingOn 1) freshWorld).2 =
          [⟨exampleModule.Migrations, []⟩]) :=
  ⟨rfl, run_stops_after_failed_migrations exampleModule (failingOn 1) freshWorld "revert" rfl⟩

/-- C3, as stated, fails: on a deployer whose deploy returns at once and whose
deployment fails afterwards with the error "revert", be it the Migrations or
the CredentialBox deployment, both calls return and the run returns normally:
it does not fail with "revert", and the runner gets no error from it either. -/
theorem late_failure_does_not_reach_caller :
    ((migrate exampleModule (lateFailingOn 3) freshLedgerWorld).2.ext.failed =
          [(exampleModule.CredentialBox, "revert")] ∧
        (run exampleModule (lateFailingOn 3) freshLedgerWorld).1 = .ok () ∧
        (run exampleModule (lateFailingOn 3) freshLedgerWorld).1 ≠ .error "revert" ∧
        (migrate exampleModule (lateFailingOn 3) freshLedgerWorld).1 = .ok ()) ∧
      ((migrate exampleModule (lateFailingOn 1) freshLedgerWorld).2.ext.failed =
          [(exampleModule.Migrations, "revert")] ∧
        (run exampleModule (lateFailingOn 1) freshLedgerWorld).1 = .ok () ∧
        (run exampleModule (lateFailingOn 1) freshLedgerWorld).1 ≠ .error "revert" ∧
        (migrate exampleModule (lateFailingOn 1) freshLedgerWorld).1 = .ok ()) := by
  have ok3 : (run exampleModule (lateFailingOn 3) freshLedgerWorld).1 = .ok () := rfl
  have ok1 : (run exampleModule (lateFailingOn 1) freshLedgerWorld).1 = .ok () := rfl
  refine ⟨⟨by decide, ok3, ?_, rfl⟩, ⟨by decide, ok1, ?_, rfl⟩⟩
  · rw [ok3]
    exact fun h => Except.noConfusion h
  · rw [ok1]
    exact fun h => Except.noConfusion h

/-- C3, amended: a run fails with the error e exactly when one of the deploy
calls it makes throws e: the Migrations call, or, after the Migrations call has
returned, the CredentialBox call.  So the error thrown by a call is the error
of the run, unchanged, and the run has no failure of its own. -/
theorem run_fails_iff_deploy_fails (m : Module V) (d : Deployer σ V ε) (w : World σ V) (e : ε) :
    (run m d w).1 = .error e ↔
      (callDeploy d m.Migrations [] w).1 = .error e ∨
        ((∃ r, (callDeploy d m.Migrations [] w).1 = .ok r) ∧
          (callDeploy d m.CredentialBox [] (callDeploy d m.Migrations [] w).2).1 = .error e) := by
  constructor
  · intro hrun
    rcases run_cases m d w with ⟨e1, h1, h⟩ | ⟨r, e1, h1, h2, h⟩ | ⟨r1, r2, h1, h2, h⟩
    · rw [h] at hrun
      have he : e1 = e := by simpa using hrun
      exact Or.inl (he ▸ h1)
    · rw [h] at hrun
      have he : e1 = e := by simpa using hrun
      exact Or.inr ⟨⟨r, h1⟩, he ▸ h2⟩
    · rw [h] at hrun
      simp at hrun
  · rintro (h1 | ⟨⟨r, h1⟩, h2⟩)
    · rw [run_of_first_error m d w e h1]
    · rw [run_of_second_error m d w r e h1 h2]

/-- C7: the requests a run issues are the Migrations request, followed by the
CredentialBox request unless the first call threw; each carries the artifact
and an empty argument list, so no value returned by the Migrations deployment
is among the arguments of a request. -/
theorem run_requests_carry_no_arguments (m : Module V) (d : Deployer σ V ε) (w : World σ V) :
    ∃ reqs : List (Request V),
      requestLog (run m d w).2 = requestLog w ++ reqs ∧
        (reqs = [⟨m.Migrations, []⟩] ∨
          reqs = [⟨m.Migrations, []⟩, ⟨m.CredentialBox, []⟩]) ∧
        ∀ req ∈ reqs,
          req.args = [] ∧
            (req.artifact = m.Migrations ∨ req.artifact = m.CredentialBox) ∧
            ∀ receipt, (callDeploy d m.Migrations [] w).1 = .ok receipt →
              receipt ∉ req.args := by
  have key : ∀ reqs : List (Request V),
      (reqs = [⟨m.Migrations, []⟩] ∨ reqs = [⟨m.Migrations, []⟩, ⟨m.CredentialBox, []⟩]) →
      ∀ req ∈ reqs,
        req.args = [] ∧
          (req.artifact = m.Migrations ∨ req.artifact = m.CredentialBox) ∧
          ∀ receipt, (callDeploy d m.Migrations [] w).1 = .ok receipt →
            receipt ∉ req.args := by
    intro reqs hreqs req hmem
    have hreq : req = ⟨m.Migrations, []⟩ ∨ req = ⟨m.CredentialBox, []⟩ := by
      rcases hreqs with h | h <;> subst h <;> simp at hmem <;> tauto
    rcases hreq with h | h <;> subst h <;> simp
  rcases run_cases m d w with ⟨e1, h1, h⟩ | ⟨r, e1, h1, h2, h⟩ | ⟨r1, r2, h1, h2, h⟩
  · refine ⟨[⟨m.Migrations, []⟩], ?_, Or.inl rfl, key _ (Or.inl rfl)⟩
    rw [h]
    exact callDeploy_requestLog d m.Migrations [] w
  · refine ⟨[⟨m.Migrations, []⟩, ⟨m.CredentialBox, []⟩], ?_, Or.inr rfl, key _ (Or.inr rfl)⟩
    rw [h]
    exact requestLog_two_calls m d w
  · refine ⟨[⟨m.Migrations, []⟩, ⟨m.CredentialBox, []⟩], ?_, Or.inr rfl, key _ (Or.inr rfl)⟩
    rw [h]
    exact requestLog_two_calls m d w

/-- C8: when both deploy calls return, the run returns normally and its value
is the unit value, whatever receipts the two calls returned. -/
theorem run_returns_unit (m : Module V) (d : Deployer σ V ε) (w : World σ V) (r1 r2 : V)
    (h1 : (callDeploy d m.Migrations [] w).1 = .ok r1)
    (h2 : (callDeploy d m.CredentialBox [] (callDeploy d m.Migrations [] w).2).1 = .ok r2) :
    (run m d w).1 = .ok () := by
  rw [run_of_ok m d w r1 r2 h1 h2]

theorem run_returns_unit_witness :
    (callDeploy syncDeployer exampleModule.Migrations [] freshWorld).1 = .ok 1 ∧
      (callDeploy syncDeployer exampleModule.CredentialBox []
          (callDeploy syncDeployer exampleModule.Migrations [] freshWorld).2).1 = .ok 2 ∧
      (run exampleModule syncDeployer freshWorld).1 = .ok () :=
  ⟨rfl, rfl, run_returns_unit exampleModule syncDeployer freshWorld 1 2 rfl rfl⟩

/-- C9: when the Migrations deploy returns and the CredentialBox deploy fails,
the run fails having issued exactly the two requests, Migrations then
CredentialBox: nothing is requested again and nothing is issued afterwards, the
world after the run being the world the two calls left. -/
theorem run_no_retry_no_rollback (m : Module V) (d : Deployer σ V ε) (w : World σ V)
    (r : V) (e : ε)
    (h1 : (callDeploy d m.Migrations [] w).1 = .ok r)
    (h2 : (callDeploy d m.CredentialBox [] (callDeploy d m.Migrations [] w).2).1 = .error e) :
    requestLog (run m d w).2 =
        requestLog w ++ [⟨m.Migrations, []⟩, ⟨m.CredentialBox, []⟩] ∧
      (run m d w).2 = (callDeploy d m.CredentialBox [] (callDeploy d m.Migrations [] w).2).2 ∧
      (run m d w).1 = .error e := by
  rw [run_of_second_error m d w r e h1 h2]
  exact ⟨requestLog_two_calls m d w, rfl, rfl⟩

theorem run_no_retry_no_rollback_witness :
    (callDeploy (failingOn 3) exampleModule.Migrations [] freshWorld).1 = .ok 1 ∧
      (callDeploy (failingOn 3) exampleModule.CredentialBox []
          (callDeploy (failingOn 3) exampleModule.Migrations [] freshWorld).2).1 =
        .error "revert" ∧
      requestLog (run exampleModule (failingOn 3) freshWorld).2 =
        requestLog freshWorld ++
          [⟨exampleModule.Migrations, []⟩, ⟨exampleModule.CredentialBox, []⟩] ∧
      (run exampleModule (failingOn 3) freshWorld).2 =
        (callDeploy (failingOn 3) exampleModule.CredentialBox []
          (callDeploy (failingOn 3) exampleModule.Migrations [] freshWorld).2).2 ∧
      (run exampleModule (failingOn 3) freshWorld).1 = .error "revert" :=
  ⟨rfl, rfl, run_no_retry_no_rollback exampleModule (failingOn 3) freshWorld 1 "revert" rfl rfl⟩

end Run

/-! ## Order of events -/

section Order

variable {σ V ε : Type}

/-- C4, as stated, fails: with a deploy that only queues the deployment and
returns, the run has no error and both deployments complete, yet both requests
are recorded before the completion of Migrations. -/
theorem async_completion_follows_second_request :
    (migrate exampleModule asyncDeployer freshQueueWorld).1 = .ok () ∧
      (migrate exampleModule asyncDeployer freshQueueWorld).2.trace =
        [.requested ⟨1, []⟩, .requested ⟨3, []⟩, .completed 1, .completed 3] ∧
      completesBeforeRequest exampleModule.Migrations exampleModule.CredentialBox
        (migrate exampleModule asyncDeployer freshQueueWorld).2.trace = false :=
  ⟨rfl, by decide, by decide⟩

/-- C4, amended: in a run with no errors the events recorded are, in order,
the Migrations request, the completions recorded during the Migrations call,
the CredentialBox request, and the completions recorded during the
CredentialBox call.  So the Migrations call has returned before CredentialBox
is requested, and on a deployer that records a completion before its deploy
call returns, the Migrations deployment completes before the CredentialBox
deployment is requested. -/
theorem sync_completion_precedes_second_request [DecidableEq V] (m : Module V)
    (d : Deployer σ V ε) (w : World σ V) (hok : (run m d w).1 = .ok ()) :
    (run m d w).2.trace =
        w.trace ++
          (Event.requested ⟨m.Migrations, []⟩ ::
              (d.deploy m.Migrations [] w.ext).completed.map Event.completed ++
            Event.requested ⟨m.CredentialBox, []⟩ ::
              (d.deploy m.CredentialBox []
                (d.deploy m.Migrations [] w.ext).state).completed.map Event.completed) ∧
      (d.Synchronous →
        m.Migrations ∈ (d.deploy m.Migrations [] w.ext).completed ∧
          (m.Migrations ≠ m.CredentialBox →
            completesBeforeRequest m.Migrations m.CredentialBox
              ((run m d w).2.trace.drop w.trace.length) = true)) := by
  have htrace : (run m d w).2.trace =
      w.trace ++
        (Event.requested ⟨m.Migrations, []⟩ ::
            (d.deploy m.Migrations [] w.ext).completed.map Event.completed ++
          Event.requested ⟨m.CredentialBox, []⟩ ::
            (d.deploy m.CredentialBox []
              (d.deploy m.Migrations [] w.ext).state).completed.map Event.completed) := by
    rcases run_cases m d w with ⟨e1, h1, h⟩ | ⟨r, e1, h1, h2, h⟩ | ⟨r1, r2, h1, h2, h⟩
    · rw [h] at hok
      simp at hok
    · rw [h] at hok
      simp at hok
    · rw [h]
      simp [callDeploy_trace, callDeploy_ext]
  refine ⟨htrace, fun hs => ⟨hs _ _ _, fun hne => ?_⟩⟩
  have hmem : m.Migrations ∈ (d.deploy m.Migrations [] w.ext).completed := hs _ _ _
  rw [htrace, List.drop_left]
  unfold completesBeforeRequest
  rw [List.takeWhile_append_of_pos]
  · simp only [List.contains_eq_any_beq, List.any_eq_true]
    exact ⟨Event.completed m.Migrations,
      List.mem_append_left _ (List.mem_cons_of_mem _ (List.mem_map_of_mem _ hmem)), by simp⟩
  · intro e he
    rcases List.mem_cons.mp he with rfl | he
    · simpa using hne
    · obtain ⟨a, -, rfl⟩ := List.mem_map.mp he
      rfl

theorem sync_completion_precedes_second_request_witness :
    (run exampleModule syncDeployer freshWorld).1 = .ok () ∧
      (run exampleModule syncDeployer freshWorld).2.trace =
        freshWorld.trace ++
          (Event.requested ⟨exampleModule.Migrations, []⟩ ::
              (syncDeployer.deploy exampleModule.Migrations []
                freshWorld.ext).completed.map Event.completed ++
            Event.requested ⟨exampleModule.CredentialBox, []⟩ ::
              (syncDeployer.deploy exampleModule.CredentialBox []
                (syncDeployer.deploy exampleModule.Migrations []
                  freshWorld.ext).state).completed.map Event.completed) ∧
      (syncDeployer.Synchronous →
        exampleModule.Migrations ∈
            (syncDeployer.deploy exampleModule.Migrations [] freshWorld.ext).completed ∧
          (exampleModule.Migrations ≠ exampleModule.CredentialBox →
            completesBeforeRequest exampleModule.Migrations exampleModule.CredentialBox
              ((run exampleModule syncDeployer freshWorld).2.trace.drop
                freshWorld.trace.length) = true)) :=
  ⟨rfl, sync_completion_precedes_second_request exampleModule syncDeployer freshWorld rfl⟩

end Order

/-! ## Resolution at load, requests at run -/

section Load

variable {σ V ε : Type}

/-- C5, as stated, fails: the second name handed to the resolver is
"CredentialBox.sol", not "CredentialBox"; on a resolver that tells the two
names apart, the artifact the script holds is the result for the former. -/
theorem second_name_carries_sol_suffix :
    (load tableResolver freshLoadWorld).2.resolved = ["Migrations", "CredentialBox.sol"] ∧
      (load tableResolver freshLoadWorld).2.resolved ≠ ["Migrations", "CredentialBox"] ∧
      (load tableResolver freshLoadWorld).1 = .ok ⟨1, 3⟩ ∧
      (tableResolver.require "CredentialBox" freshLoadWorld.ext).1 = .ok 2 ∧
      requestLog (run ⟨1, 3⟩ syncDeployer freshWorld).2 = [⟨1, []⟩, ⟨3, []⟩] :=
  ⟨by decide, by decide, rfl, rfl, by decide⟩

/-- C5, amended: the names the script passes to the resolver are exactly
"Migrations" and "CredentialBox.sol", in that order, and the two artifacts a
run deploys are the values the resolver returned for those two names. -/
theorem load_resolves_source_names (artifacts : Resolver σ V ε) (w w1 : World σ V)
    (m : Module V) (hload : load artifacts w = (.ok m, w1)) :
    w1.resolved = w.resolved ++ ["Migrations", "CredentialBox.sol"] ∧
      (∃ s1 s2, artifacts.require "Migrations" w.ext = (.ok m.Migrations, s1) ∧
        artifacts.require "CredentialBox.sol" s1 = (.ok m.CredentialBox, s2)) ∧
      ∀ (d : Deployer σ V ε) (w2 : World σ V), d.Succeeds →
        requestLog (run m d w2).2 =
          requestLog w2 ++ [⟨m.Migrations, []⟩, ⟨m.CredentialBox, []⟩] := by
  obtain ⟨s1, s2, h1, h2, hw⟩ := load_of_ok artifacts w w1 m hload
  refine ⟨by rw [hw], ⟨s1, s2, h1, h2⟩, fun d w2 hd => ?_⟩
  rw [run_of_succeeds m d w2 hd]
  exact requestLog_two_calls m d w2

theorem load_resolves_source_names_witness :
    load tableResolver freshWorld =
        (.ok exampleModule, ⟨["Migrations", "CredentialBox.sol"], [], 0⟩) ∧
      (⟨["Migrations", "CredentialBox.sol"], [], 0⟩ : World Nat Nat).resolved =
        freshWorld.resolved ++ ["Migrations", "CredentialBox.sol"] ∧
      (∃ s1 s2,
        (tableResolver : Resolver Nat Nat String).require "Migrations" freshWorld.ext =
            (.ok exampleModule.Migrations, s1) ∧
          (tableResolver : Resolver Nat Nat String).require "CredentialBox.sol" s1 =
            (.ok exampleModule.CredentialBox, s2)) ∧
      ∀ (d : Deployer Nat Nat String) (w2 : World Nat Nat), d.Succeeds →
        requestLog (run exampleModule d w2).2 =
          requestLog w2 ++ [⟨exampleModule.Migrations, []⟩, ⟨exampleModule.CredentialBox, []⟩] :=
  ⟨rfl, load_resolves_source_names tableResolver freshWorld _ exampleModule rfl⟩

/-- C6: two runs of a loaded module on fresh request logs, each on a deployer
whose deploy always succeeds, issue the same request sequence, whatever the
deployers, their states and their receipts are; the sequence is the two-step
one, and a second run on the same target issues it again. -/
theorem run_request_sequence_is_fixed {σ₁ σ₂ ε₁ ε₂ : Type} (m : Module V)
    (d₁ : Deployer σ₁ V ε₁) (d₂ : Deployer σ₂ V ε₂) (w₁ : World σ₁ V) (w₂ : World σ₂ V)
    (h₁ : d₁.Succeeds) (h₂ : d₂.Succeeds)
    (f₁ : requestLog w₁ = []) (f₂ : requestLog w₂ = []) :
    requestLog (run m d₁ w₁).2 = requestLog (run m d₂ w₂).2 ∧
      requestLog (run m d₁ w₁).2 = [⟨m.Migrations, []⟩, ⟨m.CredentialBox, []⟩] ∧
      requestLog (run m d₁ (run m d₁ w₁).2).2 =
        requestLog (run m d₁ w₁).2 ++ [⟨m.Migrations, []⟩, ⟨m.CredentialBox, []⟩] := by
  have e₁ : requestLog (run m d₁ w₁).2 = [⟨m.Migrations, []⟩, ⟨m.CredentialBox, []⟩] := by
    rw [run_of_succeeds m d₁ w₁ h₁, requestLog_two_calls, f₁]
    rfl
  have e₂ : requestLog (run m d₂ w₂).2 = [⟨m.Migrations, []⟩, ⟨m.CredentialBox, []⟩] := by
    rw [run_of_succeeds m d₂ w₂ h₂, requestLog_two_calls, f₂]
    rfl
  refine ⟨e₁.trans e₂.symm, e₁, ?_⟩
  rw [run_of_succeeds m d₁ (run m d₁ w₁).2 h₁, requestLog_two_calls]

theorem run_request_sequence_is_fixed_witness :
    syncDeployer.Succeeds ∧ asyncDeployer.Succeeds ∧
      requestLog freshWorld = [] ∧ requestLog freshQueueWorld = [] ∧
      (requestLog (run exampleModule syncDeployer freshWorld).2 =
          requestLog (run exampleModule asyncDeployer freshQueueWorld).2 ∧
        requestLog (run exampleModule syncDeployer freshWorld).2 =
          [⟨exampleModule.Migrations, []⟩, ⟨exampleModule.CredentialBox, []⟩] ∧
        requestLog (run exampleModule syncDeployer
            (run exampleModule syncDeployer freshWorld).2).2 =
          requestLog (run exampleModule syncDeployer freshWorld).2 ++
            [⟨exampleModule.Migrations, []⟩, ⟨exampleModule.CredentialBox, []⟩]) :=
  ⟨fun _ _ _ => ⟨_, rfl⟩, fun _ _ _ => ⟨_, rfl⟩, rfl, rfl,
    run_request_sequence_is_fixed exampleModule syncDeployer asyncDeployer freshWorld
      freshQueueWorld (fun _ _ _ => ⟨_, rfl⟩) (fun _ _ _ => ⟨_, rfl⟩) rfl rfl⟩

/-- C10: resolution happens at load only.  A load that yields the module makes
exactly two resolver calls and records no deploy event; the module holds the
two values the resolver returned; no run makes a resolver call; and n runs on
deployers that always succeed issue 2n requests, each run the two held values
in order, while the resolver calls stay the two made at load. -/
theorem resolution_happens_at_load_only (artifacts : Resolver σ V ε) (w w1 : World σ V)
    (m : Module V) (hload : load artifacts w = (.ok m, w1)) :
    w1.resolved.length = w.resolved.length + 2 ∧
      w1.trace = w.trace ∧
      (∃ s1 s2, artifacts.require "Migrations" w.ext = (.ok m.Migrations, s1) ∧
        artifacts.require "CredentialBox.sol" s1 = (.ok m.CredentialBox, s2)) ∧
      (∀ (d : Deployer σ V ε) (w2 : World σ V), (run m d w2).2.resolved = w2.resolved) ∧
      ∀ ds : List (Deployer σ V ε), (∀ d ∈ ds, d.Succeeds) →
        (runAll m ds w1).1 = .ok () ∧
          (runAll m ds w1).2.resolved = w1.resolved ∧
          requestLog (runAll m ds w1).2 = requestLog w1 ++ repeatRequests m ds.length ∧
          (requestLog (runAll m ds w1).2).length = (requestLog w1).length + 2 * ds.length := by
  obtain ⟨s1, s2, h1, h2, hw⟩ := load_of_ok artifacts w w1 m hload
  refine ⟨by rw [hw]; simp, by rw [hw], ⟨s1, s2, h1, h2⟩, fun d w2 => run_resolved m d w2,
    fun ds hds => ?_⟩
  obtain ⟨r1, r2, r3⟩ := runAll_of_succeeds m ds w1 hds
  refine ⟨r1, r2, r3, ?_⟩
  rw [r3, List.length_append, repeatRequests_length]

theorem resolution_happens_at_load_only_witness :
    load tableResolver freshWorld =
        (.ok exampleModule, ⟨["Migrations", "CredentialBox.sol"], [], 0⟩) ∧
      (runAll exampleModule [syncDeployer, syncDeployer, syncDeployer]
          ⟨["Migrations", "CredentialBox.sol"], [], 0⟩).2.resolved =
        ["Migrations", "CredentialBox.sol"] ∧
      (requestLog (runAll exampleModule [syncDeployer, syncDeployer, syncDeployer]
          ⟨["Migrations", "CredentialBox.sol"], [], 0⟩).2).length = 0 + 2 * 3 :=
  ⟨rfl,
    ((resolution_happens_at_load_only tableResolver freshWorld
        ⟨["Migrations", "CredentialBox.sol"], [], 0⟩ exampleModule rfl).2.2.2.2
      [syncDeployer, syncDeployer, syncDeployer]
      (fun d hd => by
        simp only [List.mem_cons, List.mem_singleton, List.not_mem_nil, or_false, or_self] at hd
        subst hd
        exact fun _ _ _ => ⟨_, rfl⟩)).2.1,
    ((resolution_happens_at_load_only tableResolver freshWorld
        ⟨["Migrations", "CredentialBox.sol"], [], 0⟩ exampleModule rfl).2.2.2.2
      [syncDeployer, syncDeployer, syncDeployer]
      (fun d hd => by
        simp only [List.mem_cons, List.mem_singleton, List.not_mem_nil, or_false, or_self] at hd
        subst hd
        exact fun _ _ _ => ⟨_, rfl⟩)).2.2.2⟩

end Load

end MakeDID
